import Mathlib

set_option linter.unusedVariables false

/-!
Shallow embedding of the vidsense media pipeline (repository aadya940/vidsense)
together with proofs about its behaviour.  Python floats are modelled by the
rational numbers; boto3 service calls are modelled by explicit environment
records describing the responses the services return; a Python function that
can raise is modelled with Except, and a loop that can fail to terminate is
modelled with Option (none standing for a poll loop that never reaches a
terminal status).
-/

namespace Vidsense

/-- Embeds the dataclass VideoCut of src/vidcrawl/core/datamodel.py lines
17-27.  The source field named end is renamed stop because end is a Lean
keyword. -/
structure VideoCut where
  cut_id : String
  start : ℚ
  stop : ℚ
  start_frame : ℕ
  end_frame : ℕ
  source_video : String
  local_source_video : String
deriving DecidableEq

/-- Embeds the dataclass AudioClip of datamodel.py lines 30-37; source_cut is
optional because separator passes None for it. -/
structure AudioClip where
  audio_data : List String
  start : ℚ
  stop : ℚ
  source_cut : Option VideoCut
deriving DecidableEq

/-- Embeds the dataclass VideoClip of datamodel.py lines 40-45.  Its only
declared fields are keyframes and source_cut; it has no start, end,
timestamps fields. -/
structure VideoClip where
  keyframes : List String
  source_cut : Option VideoCut
deriving DecidableEq

/-- Embeds the dataclass Transcript of datamodel.py lines 49-56 (field end
renamed stop, a Lean keyword). -/
structure Transcript where
  text : String
  start : ℚ
  stop : ℚ
  confidence : ℚ
deriving DecidableEq

/-- Embeds one element of the items array of the transcript JSON consumed by
transcribe_audio_s3 (src/vidcrawl/core/_audio.py lines 104-144): an item of
type pronunciation carries a word with start_time, end_time, confidence; an
item of type punctuation carries only its text content. -/
inductive TranscriptItem where
  | pronunciation (content : String) (start_time end_time confidence : ℚ)
  | punctuation (content : String)
deriving DecidableEq

/-- Loop state of the transcript parsing loop of transcribe_audio_s3
(_audio.py lines 94-103): transcripts accumulated so far, the word buffer
current_text, and the Python variables current_start / current_end (None
modelled by Option). -/
structure SegState where
  transcripts : List Transcript
  current_text : List String
  current_start : Option ℚ
  current_end : Option ℚ
deriving DecidableEq

/-- Embeds the Python statement current_text[-1] += content, appending a
punctuation string onto the last buffered word (_audio.py line 132). -/
def appendToLast : List String → String → List String
  | [], _ => []
  | [w], p => [w ++ p]
  | w :: ws, p => w :: appendToLast ws p

/-- Embeds one iteration of the for item in items loop of transcribe_audio_s3
(_audio.py lines 104-144).  In the source current_start is never None where
it is read (a segment is only emitted while the buffer is nonempty, and the
first buffered word always sets current_start), so the Option default 0 of
getD is never the value actually used. -/
def segStep (acStart : ℚ) (st : SegState) (item : TranscriptItem) : SegState :=
  match item with
  | .pronunciation word s e conf =>
    let cs : ℚ := match st.current_start with
      | none => s
      | some x => x
    let text := st.current_text ++ [word]
    if 10 ≤ text.length then
      { transcripts := st.transcripts ++
          [{ text := String.intercalate " " text
             start := acStart + cs
             stop := acStart + e
             confidence := conf }]
        current_text := []
        current_start := none
        current_end := some e }
    else
      { st with current_text := text, current_start := some cs, current_end := some e }
  | .punctuation p =>
    if st.current_text.isEmpty then st
    else
      let text := appendToLast st.current_text p
      if p = "." ∨ p = "!" ∨ p = "?" then
        { transcripts := st.transcripts ++
            [{ text := String.intercalate " " text
               start := acStart + st.current_start.getD 0
               stop := acStart + st.current_end.getD 0
               confidence := 1 }]
          current_text := []
          current_start := none
          current_end := st.current_end }
      else
        { st with current_text := text }

/-- Embeds the whole parsing phase of transcribe_audio_s3 (_audio.py lines
94-155): fold the loop body over the items, then flush any remaining buffered
words as a final segment with confidence 1.0 (lines 146-155). -/
def segmentItems (acStart : ℚ) (items : List TranscriptItem) : List Transcript :=
  let st := items.foldl (segStep acStart) ⟨[], [], none, none⟩
  if st.current_text.isEmpty then st.transcripts
  else st.transcripts ++
    [{ text := String.intercalate " " st.current_text
       start := acStart + st.current_start.getD 0
       stop := acStart + st.current_end.getD 0
       confidence := 1 }]

/-- One response of the transcribe service to a get_transcription_job poll
(_audio.py lines 72-73): the TranscriptionJobStatus field, with the failure
reason attached to a FAILED response. -/
inductive TransJobPoll where
  | completed
  | failed (reason : String)
  | inProgress
deriving DecidableEq

/-- Embeds the polling loop of transcribe_audio_s3 (_audio.py lines 71-82)
over the list of successive poll responses: the loop exits normally on
COMPLETED, raises on FAILED, and keeps polling otherwise; an exhausted
response list models a loop that never reaches a terminal status (none). -/
def pollTranscription : List TransJobPoll → Option (Except String Unit)
  | [] => none
  | .completed :: _ => some (.ok ())
  | .failed reason :: _ => some (.error ("Transcription failed: " ++ reason))
  | .inProgress :: rest => pollTranscription rest

/-- Environment of one transcribe_audio_s3 call: the outcome of
start_transcription_job, the successive poll responses, and the items array
of the fetched transcript JSON. -/
structure TranscribeEnv where
  startJob : Except String Unit
  polls : List TransJobPoll
  items : List TranscriptItem

/-- Embeds transcribe_audio_s3 (_audio.py lines 26-174).  An empty audio_data
list returns [] at once (lines 45-47).  The whole body sits inside one try
whose except clause catches every exception, prints it and returns [] (lines
167-174); so a start_transcription_job failure or a FAILED job status results
in a normal empty return, never a raised error.  The value none models a run
whose polling loop never terminates. -/
def transcribe_audio_s3 (audio_clip : AudioClip) (env : TranscribeEnv) :
    Option (List Transcript) :=
  if audio_clip.audio_data.isEmpty then some []
  else
    match env.startJob with
    | .error _ => some []
    | .ok _ =>
      match pollTranscription env.polls with
      | none => none
      | some (.error _) => some []
      | some (.ok _) => some (segmentItems audio_clip.start env.items)

/-- One SHOT segment as reported by the rekognition segment-detection job,
with the fields read by get_scene_detection_results (_scenes.py lines
67-78). -/
structure ShotSegment where
  index : ℕ
  startMillis : ℚ
  endMillis : ℚ
  startFrame : ℕ
  endFrame : ℕ
deriving DecidableEq

/-- One response of the rekognition get_segment_detection poll (_scenes.py
lines 41-46): JobStatus plus the payload of a terminal response. -/
inductive SegJobPoll where
  | succeeded (segments : List ShotSegment)
  | failed (reason : String)
  | inProgress
deriving DecidableEq

/-- Embeds poll_results (_scenes.py lines 39-48): loop until SUCCEEDED
(returning the result) or FAILED (raising); an exhausted response list models
a loop that never reaches a terminal status. -/
def poll_results : List SegJobPoll → Option (Except String (List ShotSegment))
  | [] => none
  | .succeeded segments :: _ => some (.ok segments)
  | .failed reason :: _ => some (.error reason)
  | .inProgress :: rest => poll_results rest

/-- Embeds the VideoCut built for one reported segment (_scenes.py lines
68-76). -/
def mkVideoCut (seg : ShotSegment) : VideoCut :=
  { cut_id := "cut_" ++ toString seg.index
    start := seg.startMillis / 1000
    stop := seg.endMillis / 1000
    start_frame := seg.startFrame
    end_frame := seg.endFrame
    source_video := "videos/demo.mp4"
    local_source_video := "demo.mp4" }

/-- Embeds get_scene_detection_results (_scenes.py lines 51-79): poll to a
terminal status, then build one VideoCut per reported segment.  There is no
fallback for an empty segment list: the comprehension over an empty Segments
array yields the empty list. -/
def get_scene_detection_results (polls : List SegJobPoll) :
    Option (Except String (List VideoCut)) :=
  match poll_results polls with
  | none => none
  | some (.error e) => some (.error e)
  | some (.ok segments) => some (.ok (segments.map mkVideoCut))

/-- Abstraction of a readable video for extract_best_frames_fast
(src/vidcrawl/core/_transform.py lines 39-122): the fps and frame-count
properties reported by cv2, and for each frame index the grayscale pixel
values of that frame (cv2.cvtColor to grayscale is folded into this view,
since the scoring only ever reads the grayscale image).  Every read succeeds,
matching a video whose frames are all decodable. -/
structure Video where
  fps : ℚ
  total_frames : ℕ
  frame : ℕ → List ℕ

/-- Embeds np.mean of cv2.absdiff of two grayscale images of the same shape
(_transform.py lines 75-77): the mean absolute pixel difference as an exact
rational. -/
def absdiffList (f g : List ℕ) : List ℕ :=
  List.zipWith (fun a b => max a b - min a b) f g

/-- Embeds np.mean of the absolute-difference image: sum over count. -/
def meanAbsDiff (f g : List ℕ) : ℚ :=
  ((absdiffList f g).sum : ℚ) / ((absdiffList f g).length : ℚ)

/-- One entry of the frame_scores list of extract_best_frames_fast
(_transform.py lines 81-85). -/
structure Candidate where
  frame_num : ℕ
  timestamp : ℚ
  score : ℚ
deriving DecidableEq

/-- Number of indices of the Python range(0, total, rate), rate positive. -/
def sampleCount (total rate : ℕ) : ℕ := (total + rate - 1) / rate

/-- The indices of the Python range(0, total_frames, sample_rate) of
_transform.py line 67. -/
def sampledIndices (total rate : ℕ) : List ℕ :=
  List.range' 0 (sampleCount total rate) rate

/-- Embeds the scoring loop of extract_best_frames_fast (_transform.py lines
63-87): walk the sampled indices carrying the previously sampled frame; the
first sampled frame scores 0, every later one scores the mean absolute
grayscale difference against the previous sampled frame. -/
def scoreAux (v : Video) : List ℕ → Option (List ℕ) → List Candidate
  | [], _ => []
  | n :: rest, prev =>
    let fr := v.frame n
    let score : ℚ := match prev with
      | none => 0
      | some p => meanAbsDiff p fr
    { frame_num := n, timestamp := (n : ℚ) / v.fps, score := score } ::
      scoreAux v rest (some fr)

/-- The frame_scores list produced by phase 1 of extract_best_frames_fast. -/
def scoreFrames (v : Video) (sample_rate : ℕ) : List Candidate :=
  scoreAux v (sampledIndices v.total_frames sample_rate) none

/-- Ordering used by frame_scores.sort(key score, reverse=True) at
_transform.py line 91: higher score first.  Python list.sort is stable, as is
List.insertionSort, which models it here. -/
def scoreGE (a b : Candidate) : Prop := b.score ≤ a.score

instance : DecidableRel scoreGE :=
  fun a b => inferInstanceAs (Decidable (b.score ≤ a.score))

instance : IsTotal Candidate scoreGE :=
  ⟨fun a b => le_total b.score a.score⟩

instance : IsTrans Candidate scoreGE :=
  ⟨fun _ _ _ h1 h2 => le_trans h2 h1⟩

/-- Ordering used by selected.sort(key frame_num) at _transform.py line 93. -/
def frameLE (a b : Candidate) : Prop := a.frame_num ≤ b.frame_num

instance : DecidableRel frameLE :=
  fun a b => inferInstanceAs (Decidable (a.frame_num ≤ b.frame_num))

instance : IsTotal Candidate frameLE :=
  ⟨fun a b => Nat.le_total a.frame_num b.frame_num⟩

instance : IsTrans Candidate frameLE :=
  ⟨fun _ _ _ h1 h2 => le_trans h1 h2⟩

/-- Ordering used by keyframe_data.sort(key timestamp) at _transform.py line
121 on (path, timestamp) pairs. -/
def tsLE (a b : String × ℚ) : Prop := a.2 ≤ b.2

instance : DecidableRel tsLE :=
  fun a b => inferInstanceAs (Decidable (a.2 ≤ b.2))

instance : IsTotal (String × ℚ) tsLE :=
  ⟨fun a b => le_total a.2 b.2⟩

instance : IsTrans (String × ℚ) tsLE :=
  ⟨fun _ _ _ h1 h2 => le_trans h1 h2⟩

/-- Embeds the Python format string frame_ followed by the 04d padded index
and .jpg (_transform.py line 103). -/
def pad4 (n : ℕ) : String :=
  let s := toString n
  String.mk (List.replicate (4 - s.length) '0') ++ s

/-- Embeds phase 3 of extract_best_frames_fast (_transform.py lines 96-118):
enumerate the selected candidates, re-read each frame and save it under
output_dir/frame_idx.jpg, collecting (path, timestamp) pairs.  All reads
succeed for a readable video.  The thread pool completion order is
nondeterministic in the source, but the pairs are sorted by timestamp at line
121 before being returned, so the submission order used here is observably
equivalent. -/
def mkKeyframeData (output_dir : String) : ℕ → List Candidate → List (String × ℚ)
  | _, [] => []
  | idx, c :: cs =>
    (output_dir ++ "/frame_" ++ pad4 idx ++ ".jpg", c.timestamp) ::
      mkKeyframeData output_dir (idx + 1) cs

/-- Embeds extract_best_frames_fast (_transform.py lines 39-122): score every
sample_rate-th frame, stable-sort the candidates by score descending, keep
the best num_frames, restore chronological order, extract and save them, and
return the (path, timestamp) pairs sorted by timestamp. -/
def extract_best_frames_fast (v : Video) (output_dir : String)
    (num_frames sample_rate : ℕ) : List (String × ℚ) :=
  let frame_scores := scoreFrames v sample_rate
  let sorted := List.insertionSort scoreGE frame_scores
  let selected := List.insertionSort frameLE (sorted.take num_frames)
  let keyframe_data := mkKeyframeData output_dir 0 selected
  List.insertionSort tsLE keyframe_data

/-- Field names of the AudioClip dataclass, datamodel.py lines 30-37. -/
def audioClipFields : List String := ["audio_data", "start", "end", "source_cut"]

/-- Field names of the VideoClip dataclass, datamodel.py lines 40-45. -/
def videoClipFields : List String := ["keyframes", "source_cut"]

/-- Keyword arguments of the AudioClip(...) call in separator, _transform.py
lines 197-202. -/
def separatorAudioClipKwargs : List String :=
  ["audio_data", "start", "end", "source_cut"]

/-- Keyword arguments of the VideoClip(...) call in separator, _transform.py
lines 205-213. -/
def separatorVideoClipKwargs : List String :=
  ["start", "end", "keyframes", "timestamps", "source_cut"]

/-- Python dataclass construction semantics: calling the generated init with
a keyword argument that is not a declared field raises TypeError, as does
omitting a declared field. -/
def dataclassCheck (fields kwargs : List String) : Except String Unit :=
  match kwargs.find? (fun k => !(fields.contains k)) with
  | some k => .error ("TypeError: unexpected keyword argument " ++ k)
  | none =>
    match fields.find? (fun f => !(kwargs.contains f)) with
    | some f => .error ("TypeError: missing argument " ++ f)
    | none => .ok ()

/-- Environment of one separator call: the duration reported by
ffmpeg.probe (_transform.py lines 158-159); audio extraction and the S3
uploads are modelled as succeeding. -/
structure ProbeEnv where
  duration : ℚ

/-- Embeds separator (_transform.py lines 124-219): extract the best frames,
probe the duration, extract and upload audio and keyframes, then build the
AudioClip and the VideoClip.  The VideoClip(...) call passes the keyword
arguments start, end, timestamps which the VideoClip dataclass of
datamodel.py does not declare, so Python dataclass semantics makes the
construction raise TypeError. -/
def separator (v : Video) (env : ProbeEnv) (num_frames sample_rate : ℕ) :
    Except String (AudioClip × VideoClip) := do
  let keyframe_data := extract_best_frames_fast v "keyframes" num_frames sample_rate
  let duration := env.duration
  let _ ← dataclassCheck audioClipFields separatorAudioClipKwargs
  let audio_clip : AudioClip :=
    { audio_data := ["audio/video_full.mp3"]
      start := 0
      stop := duration
      source_cut := none }
  let _ ← dataclassCheck videoClipFields separatorVideoClipKwargs
  let video_clip : VideoClip :=
    { keyframes := (List.range keyframe_data.length).map
        (fun idx => "keyframes/video_" ++ toString idx ++ ".jpg")
      source_cut := none }
  return (audio_clip, video_clip)

/-- Embeds the integer floor division and modulus Python applies to
nonnegative float seconds in format_timestamp (_merger.py lines 25-33). -/
def pyMod (a b : ℚ) : ℚ := a - b * (⌊a / b⌋ : ℤ)

/-- Two-digit zero padding of the Python format 02d. -/
def pad2 (n : ℤ) : String :=
  if 0 ≤ n ∧ n < 10 then "0" ++ toString n else toString n

/-- Embeds format_timestamp (_merger.py lines 25-33). -/
def format_timestamp (seconds : ℚ) : String :=
  let hours : ℤ := ⌊seconds / 3600⌋
  let minutes : ℤ := ⌊pyMod seconds 3600 / 60⌋
  let secs : ℤ := ⌊pyMod seconds 60⌋
  if 0 < hours then pad2 hours ++ ":" ++ pad2 minutes ++ ":" ++ pad2 secs
  else pad2 minutes ++ ":" ++ pad2 secs

/-- Embeds the confidence star string of merge_timeline (_merger.py line 73):
the star character repeated min(5, int(confidence * 5)) times, an empty
string when that count is not positive. -/
def confidenceStars (confidence : ℚ) : String :=
  String.join (List.replicate (min 5 (⌊confidence * 5⌋ : ℤ)).toNat "⭐")

/-- Renders a rational with two decimal places, modelling the Python format
.2f on the confidence (_merger.py line 77).  Rounding here is half-up; no
claim depends on the rendering of a confidence whose hundredths digit is a
rounding boundary. -/
def fmt2f (q : ℚ) : String :=
  let n : ℤ := ⌊q * 100 + 1 / 2⌋
  toString (n / 100) ++ "." ++ pad2 (n % 100)

/-- Embeds the per-transcript subsections of merge_timeline (_merger.py lines
71-79), with the 1-based enumeration index. -/
def transcriptSections : ℕ → List Transcript → List String
  | _, [] => []
  | i, t :: ts =>
    ("### [" ++ format_timestamp t.start ++ " - " ++ format_timestamp t.stop ++
        "] Segment " ++ toString i ++ "\n") ::
      ("**Confidence:** " ++ confidenceStars t.confidence ++ " (" ++
        fmt2f t.confidence ++ ")\n\n") ::
      (t.text ++ "\n\n") :: transcriptSections (i + 1) ts

/-- Embeds merge_timeline (_merger.py lines 36-81): header, visual section,
then either the no-transcription marker or one subsection per transcript,
joined into one markdown string. -/
def merge_timeline (visual_analysis : String) (transcripts : List Transcript)
    (video_duration : ℚ) : String :=
  String.join
    (["# 🎬 Video Analysis Report\n",
      "**Duration:** " ++ format_timestamp video_duration ++ "\n",
      "**Total Transcript Segments:** " ++ toString transcripts.length ++ "\n",
      "\n---\n",
      "## 📹 Visual Analysis\n",
      visual_analysis,
      "\n\n---\n",
      "## 🎤 Audio Transcription\n"] ++
      (if transcripts.isEmpty then ["*No transcription available*\n"]
       else transcriptSections 1 transcripts))

/-- A Python attribute value of a VideoClip instance. -/
inductive PyVal where
  | num (q : ℚ)
  | strList (l : List String)
  | cutRef (c : Option VideoCut)
deriving DecidableEq

/-- Python attribute lookup on a VideoClip instance: only the fields declared
by the dataclass (datamodel.py lines 40-45) exist; any other name raises
AttributeError. -/
def videoClipAttr (vc : VideoClip) (name : String) : Except String PyVal :=
  if name = "keyframes" then .ok (.strList vc.keyframes)
  else if name = "source_cut" then .ok (.cutRef vc.source_cut)
  else .error ("AttributeError: VideoClip object has no attribute " ++ name)

/-- Embeds create_unified_report (_merger.py lines 84-162), with the outcome
of the bedrock.converse call supplied as an environment value.  On a
successful call the model text is returned; on any failure the except clause
at lines 159-162 evaluates merge_timeline(visual_analysis, transcripts,
video_clip.end), whose video_clip.end attribute access is modelled through
videoClipAttr. -/
def create_unified_report (visual_analysis : String)
    (transcripts : List Transcript) (video_clip : VideoClip)
    (audio_clip : AudioClip) (converse : Except String String) :
    Except String String :=
  match converse with
  | .ok report => .ok report
  | .error _ =>
    match videoClipAttr video_clip "end" with
    | .error e => .error e
    | .ok (.num d) => .ok (merge_timeline visual_analysis transcripts d)
    | .ok _ => .error "TypeError: unsupported operand type"

/-- Modelled from the spec: the repository has no multi-cut Orchestrator
under src (ui.py lines 147-162 only run the whole-video single-cut
pipeline).  Spec sections 4.4, 5 and 9 prescribe reporting per-cut outcomes
in submission order through an indexed slot array written once per index.
Here task i writes outcomes[i] into slot i when it completes, and the tasks
complete in the order given by the completion list. -/
def runCompletion {α : Type} (outcomes : List α) (completion : List ℕ) :
    List (Option α) :=
  completion.foldl
    (fun slots i =>
      match outcomes[i]? with
      | some v => slots.set i (some v)
      | none => slots)
    (List.replicate outcomes.length none)

/-- Modelled from the spec: once every task has completed, the Orchestrator
reports the filled result slots in index order. -/
def reportOutcomes {α : Type} (outcomes : List α) (completion : List ℕ) :
    List α :=
  (runCompletion outcomes completion).filterMap id

/-- A word token of the speech-service stream as the spec's
TranscriptSegmenter sees it (spec section 4.5), with its start and end
timestamps and confidence. -/
structure Word where
  text : String
  start : ℚ
  stop : ℚ
  confidence : ℚ
deriving DecidableEq

/-- The word tokens of an item stream, in stream order. -/
def wordsOf : List TranscriptItem → List Word
  | [] => []
  | .pronunciation c s e conf :: rest => ⟨c, s, e, conf⟩ :: wordsOf rest
  | .punctuation _ :: rest => wordsOf rest

/-- The start and end timestamps of each word, flattened in stream order. -/
def wordTimes : List Word → List ℚ
  | [] => []
  | w :: ws => w.start :: w.stop :: wordTimes ws

/-- State of the specification-side grouping of words into segments: the
closed groups so far and the open buffer. -/
structure GroupState where
  groups : List (List Word)
  buffer : List Word
deriving DecidableEq

/-- Written from the spec's words (section 4.5), as the specification side of
the refinement stated by claim C9: a segment closes once it has accumulated
10 words, or immediately when a punctuation token among . ! ? arrives on a
nonempty buffer; a punctuation token arriving on an empty buffer contributes
nothing. -/
def groupStep (gst : GroupState) (item : TranscriptItem) : GroupState :=
  match item with
  | .pronunciation c s e conf =>
    let buffer := gst.buffer ++ [⟨c, s, e, conf⟩]
    if 10 ≤ buffer.length then { groups := gst.groups ++ [buffer], buffer := [] }
    else { gst with buffer := buffer }
  | .punctuation p =>
    if gst.buffer.isEmpty then gst
    else if p = "." ∨ p = "!" ∨ p = "?" then
      { groups := gst.groups ++ [gst.buffer], buffer := [] }
    else gst

/-- The groups of contributing words of a token stream, the final flushed
group included (spec section 4.5). -/
def contributingGroups (items : List TranscriptItem) : List (List Word) :=
  let gst := items.foldl groupStep ⟨[], []⟩
  if gst.buffer.isEmpty then gst.groups else gst.groups ++ [gst.buffer]

/-- Start time of the first word of a group (default 0 for an empty group,
which never occurs among contributing groups). -/
def groupStart (g : List Word) : ℚ := (g.head?.map Word.start).getD 0

/-- End time of the last word of a group (default 0 for an empty group). -/
def groupStop (g : List Word) : ℚ := (g.getLast?.map Word.stop).getD 0

/-- A three-frame single-pixel test video with one luminance unit per frame
index. -/
def sampleVideo : Video :=
  { fps := 1, total_frames := 3, frame := fun n => [n] }

/-- A concrete AudioClip with a nonempty audio_data list, as separator builds
for a ten-second video. -/
def sampleAudioClip : AudioClip :=
  { audio_data := ["audio/video_full.mp3"], start := 0, stop := 10, source_cut := none }

/-- A transcription environment whose job starts, then reports FAILED on the
first poll. -/
def failedTranscribeEnv : TranscribeEnv :=
  { startJob := .ok (), polls := [.failed "Internal failure"], items := [] }

/-- A shot-detection poll trace: one in-progress response, then SUCCEEDED
with an empty segment list (the detector found no boundaries). -/
def emptySegmentsPolls : List SegJobPoll :=
  [.inProgress, .succeeded []]

/-- Invariant tying the code-side parsing state of transcribe_audio_s3 to the
specification-side grouping state: emitted segment time ranges are the group
time ranges offset by the clip start, the buffers have equal length, and
current_start / current_end track the first and last word of the open
buffer. -/
def SegInv (a : ℚ) (st : SegState) (gst : GroupState) : Prop :=
  st.transcripts.map (fun t => (t.start, t.stop)) =
      gst.groups.map (fun g => (a + groupStart g, a + groupStop g)) ∧
    st.current_text.length = gst.buffer.length ∧
    (gst.buffer = [] → st.current_start = none) ∧
    (gst.buffer ≠ [] →
      st.current_start = some (groupStart gst.buffer) ∧
        st.current_end = some (groupStop gst.buffer))

/-- A concrete monotone three-token stream: two words around a closing
period. -/
def monotoneItems : List TranscriptItem :=
  [.pronunciation "a" 0 1 (1 / 2), .punctuation ".",
    .pronunciation "b" 2 3 1]

/-- C1: the claim states that separator returns normally with an
(AudioClip, VideoClip) pair for every video with readable frames and audio.
In fact the VideoClip(...) construction at _transform.py lines 205-213 passes
the keyword arguments start, end and timestamps, which the VideoClip
dataclass of datamodel.py lines 40-45 does not declare, so every separator
call raises TypeError instead of returning. -/
theorem separator_always_raises (v : Video) (env : ProbeEnv)
    (num_frames sample_rate : ℕ) :
    separator v env num_frames sample_rate =
      .error "TypeError: unexpected keyword argument start" := rfl

/-- C6: the claim states that when the synthesis call fails,
create_unified_report returns the deterministic merge_timeline output and
never propagates an error.  In fact the fallback at _merger.py line 162 reads
video_clip.end, an attribute the VideoClip dataclass of datamodel.py lines
40-45 does not declare, so any failing synthesis call makes
create_unified_report propagate AttributeError instead. -/
theorem create_unified_report_fallback_raises (visual_analysis : String)
    (transcripts : List Transcript) (video_clip : VideoClip)
    (audio_clip : AudioClip) (e : String) :
    create_unified_report visual_analysis transcripts video_clip audio_clip
        (.error e) =
      .error "AttributeError: VideoClip object has no attribute end" := rfl

/-- C8 counterexample: a completed shot-detection job reporting no boundaries
yields the empty cut list, not a single Cut spanning the whole video. -/
theorem scene_results_empty_counterexample :
    get_scene_detection_results emptySegmentsPolls =
        some (.ok ([] : List VideoCut)) ∧
      ∀ c : VideoCut,
        get_scene_detection_results emptySegmentsPolls ≠ some (.ok [c]) := by
  refine ⟨rfl, fun c h => ?_⟩
  simp [get_scene_detection_results, emptySegmentsPolls, poll_results] at h

/-- C8 amended: get_scene_detection_results returns one VideoCut per segment
reported by the completed job; when the detector reports no boundaries the
result is the empty sequence, with no whole-video fallback Cut. -/
theorem scene_results_map_segments (polls : List SegJobPoll)
    (segments : List ShotSegment)
    (h : poll_results polls = some (.ok segments)) :
    get_scene_detection_results polls =
      some (.ok (segments.map mkVideoCut)) := by
  simp [get_scene_detection_results, h]

/-- Witness for scene_results_map_segments at the concrete empty-segments
poll trace. -/
theorem scene_results_map_segments_witness :
    poll_results emptySegmentsPolls = some (.ok []) ∧
      get_scene_detection_results emptySegmentsPolls =
        some (.ok (List.map mkVideoCut [])) :=
  ⟨rfl, scene_results_map_segments emptySegmentsPolls [] rfl⟩

/-- C7 counterexample: with a nonempty audio clip and a job that reports
FAILED, transcribe_audio_s3 returns the normal empty result instead of
surfacing the failure, because the except clause at _audio.py lines 167-174
catches the raised exception and returns []. -/
theorem transcribe_failed_job_counterexample :
    transcribe_audio_s3 sampleAudioClip failedTranscribeEnv = some [] := rfl

/-- C7 amended: a failure of the transcription step, either a failing
start_transcription_job call or a remote job reporting FAILED, is caught
inside transcribe_audio_s3, which returns an empty transcript list normally
rather than surfacing the failure to the caller. -/
theorem transcribe_failure_swallowed (audio_clip : AudioClip)
    (env : TranscribeEnv) (hne : audio_clip.audio_data ≠ [])
    (hfail : (∃ e, env.startJob = .error e) ∨
      ∃ e, pollTranscription env.polls = some (.error e)) :
    transcribe_audio_s3 audio_clip env = some [] := by
  have hiE : audio_clip.audio_data.isEmpty = false := by
    cases h : audio_clip.audio_data with
    | nil => exact absurd h hne
    | cons a l => rfl
  rcases hfail with ⟨e, he⟩ | ⟨e, he⟩
  · simp [transcribe_audio_s3, hiE, he]
  · cases hs : env.startJob with
    | error e2 => simp [transcribe_audio_s3, hiE, hs]
    | ok u => simp [transcribe_audio_s3, hiE, hs, he]

/-- Witness for transcribe_failure_swallowed at the concrete FAILED-job
environment. -/
theorem transcribe_failure_swallowed_witness :
    sampleAudioClip.audio_data ≠ [] ∧
      transcribe_audio_s3 sampleAudioClip failedTranscribeEnv = some [] :=
  ⟨by decide,
    transcribe_failure_swallowed sampleAudioClip failedTranscribeEnv
      (by decide)
      (Or.inr ⟨"Transcription failed: Internal failure", rfl⟩)⟩

/-- C10: a punctuation token arriving while the word buffer is empty is
silently discarded, because the elif branch at _audio.py lines 130-132
requires a nonempty current_text: the stream with that token produces exactly
the segments of the stream without it, so its text appears in no emitted
segment and it triggers no boundary. -/
theorem punctuation_on_empty_buffer_discarded (acStart : ℚ)
    (pre post : List TranscriptItem) (p : String)
    (h : (pre.foldl (segStep acStart) ⟨[], [], none, none⟩).current_text = []) :
    segmentItems acStart (pre ++ .punctuation p :: post) =
      segmentItems acStart (pre ++ post) := by
  have hstep :
      segStep acStart (pre.foldl (segStep acStart) ⟨[], [], none, none⟩)
        (.punctuation p) =
        pre.foldl (segStep acStart) ⟨[], [], none, none⟩ := by
    simp [segStep, h]
  simp [segmentItems, List.foldl_append, List.foldl_cons, hstep]

/-- Witness for punctuation_on_empty_buffer_discarded: a leading period ahead
of a single word is dropped. -/
theorem punctuation_on_empty_buffer_discarded_witness :
    (([] : List TranscriptItem).foldl (segStep 0)
        ⟨[], [], none, none⟩).current_text = [] ∧
      segmentItems 0 ([] ++ .punctuation "." :: [.pronunciation "hi" 0 1 1]) =
        segmentItems 0 ([] ++ [.pronunciation "hi" 0 1 1]) :=
  ⟨rfl,
    punctuation_on_empty_buffer_discarded 0 [] [.pronunciation "hi" 0 1 1]
      "." rfl⟩

/-- C3: the three-token stream Hello, world, period yields exactly one
segment with text Hello world. and confidence 1.0, whatever the word
timestamps and confidences; and in general a punctuation token among . ! ?
appended to a nonempty buffer closes the segment immediately with confidence
1.0, the punctuation character concatenated onto the last buffered word. -/
theorem punctuation_closes_segment :
    (∀ a s1 e1 c1 s2 e2 c2 : ℚ,
      segmentItems a
          [.pronunciation "Hello" s1 e1 c1, .pronunciation "world" s2 e2 c2,
            .punctuation "."] =
        [{ text := "Hello world.", start := a + s1, stop := a + e2,
           confidence := 1 }]) ∧
    ∀ (a : ℚ) (st : SegState) (p : String), st.current_text ≠ [] →
      (p = "." ∨ p = "!" ∨ p = "?") →
      segStep a st (.punctuation p) =
        { transcripts := st.transcripts ++
            [{ text := String.intercalate " " (appendToLast st.current_text p)
               start := a + st.current_start.getD 0
               stop := a + st.current_end.getD 0
               confidence := 1 }]
          current_text := []
          current_start := none
          current_end := st.current_end } := by
  constructor
  · intro a s1 e1 c1 s2 e2 c2
    rfl
  · intro a st p hne hp
    cases hc : st.current_text with
    | nil => exact absurd hc hne
    | cons w ws => simp [segStep, hc, hp]

/-- Witness for punctuation_closes_segment: the general punctuation-closing
conjunct applied to a one-word buffer, the hypotheses discharged
concretely. -/
theorem punctuation_closes_segment_witness :
    (SegState.current_text ⟨[], ["Hello"], some 0, some 1⟩ ≠ []) ∧
      segStep 2 ⟨[], ["Hello"], some 0, some 1⟩ (.punctuation "!") =
        { transcripts :=
            [{ text := "Hello!", start := 2 + 0, stop := 2 + 1,
               confidence := 1 }]
          current_text := []
          current_start := none
          current_end := some 1 } :=
  ⟨by decide,
    punctuation_closes_segment.2 2 ⟨[], ["Hello"], some 0, some 1⟩ "!"
      (by decide) (by decide)⟩

/-- Slot contents of the spec-modelled completion fold: a slot holds the
outcome of its task once that task appears in the completion list, and is
untouched otherwise. -/
theorem runCompletion_getElem {α : Type} (outcomes : List α) :
    ∀ (completion : List ℕ) (init : List (Option α)) (j : ℕ),
      (completion.foldl (fun slots i =>
          match outcomes[i]? with
          | some v => slots.set i (some v)
          | none => slots) init)[j]? =
        if j ∈ completion ∧ j < outcomes.length ∧ j < init.length then
          Option.map some outcomes[j]?
        else init[j]?
  | [], init, j => by simp
  | i :: rest, init, j => by
    rw [List.foldl_cons, runCompletion_getElem outcomes rest _ j]
    have hlen : (match outcomes[i]? with
        | some v => init.set i (some v)
        | none => init).length = init.length := by
      cases outcomes[i]? <;> simp
    rw [hlen]
    by_cases hj : j ∈ rest ∧ j < outcomes.length ∧ j < init.length
    · rw [if_pos hj, if_pos ⟨List.mem_cons_of_mem i hj.1, hj.2⟩]
    · rw [if_neg hj]
      by_cases hj2 : j ∈ i :: rest ∧ j < outcomes.length ∧ j < init.length
      · rw [if_pos hj2]
        have hji : j = i := by
          rcases List.mem_cons.1 hj2.1 with h | h
          · exact h
          · exact absurd ⟨h, hj2.2⟩ hj
        subst hji
        have hv := List.getElem?_eq_getElem hj2.2.1
        rw [hv]
        simp [List.getElem?_set_eq_of_lt _ hj2.2.2]
      · rw [if_neg hj2]
        cases ho : outcomes[i]? with
        | none => rfl
        | some v =>
          by_cases hij : i = j
          · subst hij
            have hlt : i < outcomes.length := (List.getElem?_eq_some.1 ho).1
            have hnlt : ¬ i < init.length := by
              intro hlt2
              exact hj2 ⟨List.mem_cons_self i rest, hlt, hlt2⟩
            rw [List.getElem?_eq_none (by simpa using Nat.le_of_not_lt hnlt),
              List.getElem?_eq_none (Nat.le_of_not_lt hnlt)]
          · exact List.getElem?_set_ne hij

/-- C5 (spec-modelled): per-cut outcomes are reported in the original
submission order for every completion order, because each task writes its
outcome into the slot of its submission index and the report reads the slots
in index order. -/
theorem report_preserves_submission_order {α : Type} (outcomes : List α)
    (completion : List ℕ)
    (hperm : completion.Perm (List.range outcomes.length)) :
    reportOutcomes outcomes completion = outcomes := by
  have hmem : ∀ j, j ∈ completion ↔ j < outcomes.length := by
    intro j
    rw [hperm.mem_iff, List.mem_range]
  have hslots : runCompletion outcomes completion = outcomes.map some := by
    apply List.ext_getElem?
    intro j
    rw [runCompletion, runCompletion_getElem]
    by_cases hjn : j < outcomes.length
    · rw [if_pos ⟨(hmem j).2 hjn, hjn, by simpa using hjn⟩]
      have hv := List.getElem?_eq_getElem hjn
      simp [hv, List.getElem?_map]
    · rw [if_neg (by
        intro h
        exact hjn h.2.1)]
      rw [List.getElem?_eq_none (by simpa using Nat.le_of_not_lt hjn),
        List.getElem?_eq_none (by simpa using Nat.le_of_not_lt hjn)]
  rw [reportOutcomes, hslots]
  simp [List.filterMap_map]

/-- Witness for report_preserves_submission_order: with cuts A, B, C and B
completing before A, the reported order is still A, B, C. -/
theorem report_preserves_submission_order_witness :
    ([1, 0, 2] : List ℕ).Perm
        (List.range (["A", "B", "C"] : List String).length) ∧
      reportOutcomes ["A", "B", "C"] [1, 0, 2] = ["A", "B", "C"] :=
  ⟨by decide, report_preserves_submission_order ["A", "B", "C"] [1, 0, 2]
    (by decide)⟩

/-- C2: a stream of exactly 25 word tokens and no punctuation tokens yields
exactly three segments of 10, 10 and 5 words; each segment closed by the
10-word trigger carries the confidence of its most recently seen word (words
10 and 20), and the end-of-stream flush segment carries confidence 1.0. -/
theorem twenty_five_words_segmentation (a : ℚ)
    (t1 : String) (s1 e1 c1 : ℚ) (t2 : String) (s2 e2 c2 : ℚ) (t3 : String) (s3 e3 c3 : ℚ)
    (t4 : String) (s4 e4 c4 : ℚ) (t5 : String) (s5 e5 c5 : ℚ) (t6 : String) (s6 e6 c6 : ℚ)
    (t7 : String) (s7 e7 c7 : ℚ) (t8 : String) (s8 e8 c8 : ℚ) (t9 : String) (s9 e9 c9 : ℚ)
    (t10 : String) (s10 e10 c10 : ℚ) (t11 : String) (s11 e11 c11 : ℚ) (t12 : String) (s12 e12 c12 : ℚ)
    (t13 : String) (s13 e13 c13 : ℚ) (t14 : String) (s14 e14 c14 : ℚ) (t15 : String) (s15 e15 c15 : ℚ)
    (t16 : String) (s16 e16 c16 : ℚ) (t17 : String) (s17 e17 c17 : ℚ) (t18 : String) (s18 e18 c18 : ℚ)
    (t19 : String) (s19 e19 c19 : ℚ) (t20 : String) (s20 e20 c20 : ℚ) (t21 : String) (s21 e21 c21 : ℚ)
    (t22 : String) (s22 e22 c22 : ℚ) (t23 : String) (s23 e23 c23 : ℚ) (t24 : String) (s24 e24 c24 : ℚ)
    (t25 : String) (s25 e25 c25 : ℚ)
    :
    segmentItems a
        [.pronunciation t1 s1 e1 c1, .pronunciation t2 s2 e2 c2, .pronunciation t3 s3 e3 c3, .pronunciation t4 s4 e4 c4, .pronunciation t5 s5 e5 c5, .pronunciation t6 s6 e6 c6, .pronunciation t7 s7 e7 c7, .pronunciation t8 s8 e8 c8, .pronunciation t9 s9 e9 c9, .pronunciation t10 s10 e10 c10, .pronunciation t11 s11 e11 c11, .pronunciation t12 s12 e12 c12, .pronunciation t13 s13 e13 c13, .pronunciation t14 s14 e14 c14, .pronunciation t15 s15 e15 c15, .pronunciation t16 s16 e16 c16, .pronunciation t17 s17 e17 c17, .pronunciation t18 s18 e18 c18, .pronunciation t19 s19 e19 c19, .pronunciation t20 s20 e20 c20, .pronunciation t21 s21 e21 c21, .pronunciation t22 s22 e22 c22, .pronunciation t23 s23 e23 c23, .pronunciation t24 s24 e24 c24, .pronunciation t25 s25 e25 c25] =
      [{ text := String.intercalate " " [t1, t2, t3, t4, t5, t6, t7, t8, t9, t10], start := a + s1, stop := a + e10, confidence := c10 },
        { text := String.intercalate " " [t11, t12, t13, t14, t15, t16, t17, t18, t19, t20], start := a + s11, stop := a + e20, confidence := c20 },
        { text := String.intercalate " " [t21, t22, t23, t24, t25], start := a + s21, stop := a + e25, confidence := 1 }] := by
  have h1 : segStep a ⟨[], [], none, none⟩ (.pronunciation t1 s1 e1 c1) =
      ⟨[], [t1], some s1, some e1⟩ := rfl
  have h2 : segStep a ⟨[], [t1], some s1, some e1⟩ (.pronunciation t2 s2 e2 c2) =
      ⟨[], [t1, t2], some s1, some e2⟩ := rfl
  have h3 : segStep a ⟨[], [t1, t2], some s1, some e2⟩ (.pronunciation t3 s3 e3 c3) =
      ⟨[], [t1, t2, t3], some s1, some e3⟩ := rfl
  have h4 : segStep a ⟨[], [t1, t2, t3], some s1, some e3⟩ (.pronunciation t4 s4 e4 c4) =
      ⟨[], [t1, t2, t3, t4], some s1, some e4⟩ := rfl
  have h5 : segStep a ⟨[], [t1, t2, t3, t4], some s1, some e4⟩ (.pronunciation t5 s5 e5 c5) =
      ⟨[], [t1, t2, t3, t4, t5], some s1, some e5⟩ := rfl
  have h6 : segStep a ⟨[], [t1, t2, t3, t4, t5], some s1, some e5⟩ (.pronunciation t6 s6 e6 c6) =
      ⟨[], [t1, t2, t3, t4, t5, t6], some s1, some e6⟩ := rfl
  have h7 : segStep a ⟨[], [t1, t2, t3, t4, t5, t6], some s1, some e6⟩ (.pronunciation t7 s7 e7 c7) =
      ⟨[], [t1, t2, t3, t4, t5, t6, t7], some s1, some e7⟩ := rfl
  have h8 : segStep a ⟨[], [t1, t2, t3, t4, t5, t6, t7], some s1, some e7⟩ (.pronunciation t8 s8 e8 c8) =
      ⟨[], [t1, t2, t3, t4, t5, t6, t7, t8], some s1, some e8⟩ := rfl
  have h9 : segStep a ⟨[], [t1, t2, t3, t4, t5, t6, t7, t8], some s1, some e8⟩ (.pronunciation t9 s9 e9 c9) =
      ⟨[], [t1, t2, t3, t4, t5, t6, t7, t8, t9], some s1, some e9⟩ := rfl
  have h10 : segStep a ⟨[], [t1, t2, t3, t4, t5, t6, t7, t8, t9], some s1, some e9⟩ (.pronunciation t10 s10 e10 c10) =
      ⟨[⟨String.intercalate " " [t1, t2, t3, t4, t5, t6, t7, t8, t9, t10], a + s1, a + e10, c10⟩], [], none, some e10⟩ := rfl
  have h11 : segStep a ⟨[⟨String.intercalate " " [t1, t2, t3, t4, t5, t6, t7, t8, t9, t10], a + s1, a + e10, c10⟩], [], none, some e10⟩ (.pronunciation t11 s11 e11 c11) =
      ⟨[⟨String.intercalate " " [t1, t2, t3, t4, t5, t6, t7, t8, t9, t10], a + s1, a + e10, c10⟩], [t11], some s11, some e11⟩ := rfl
  have h12 : segStep a ⟨[⟨String.intercalate " " [t1, t2, t3, t4, t5, t6, t7, t8, t9, t10], a + s1, a + e10, c10⟩], [t11], some s11, some e11⟩ (.pronunciation t12 s12 e12 c12) =
      ⟨[⟨String.intercalate " " [t1, t2, t3, t4, t5, t6, t7, t8, t9, t10], a + s1, a + e10, c10⟩], [t11, t12], some s11, some e12⟩ := rfl
  have h13 : segStep a ⟨[⟨String.intercalate " " [t1, t2, t3, t4, t5, t6, t7, t8, t9, t10], a + s1, a + e10, c10⟩], [t11, t12], some s11, some e12⟩ (.pronunciation t13 s13 e13 c13) =
      ⟨[⟨String.intercalate " " [t1, t2, t3, t4, t5, t6, t7, t8, t9, t10], a + s1, a + e10, c10⟩], [t11, t12, t13], some s11, some e13⟩ := rfl
  have h14 : segStep a ⟨[⟨String.intercalate " " [t1, t2, t3, t4, t5, t6, t7, t8, t9, t10], a + s1, a + e10, c10⟩], [t11, t12, t13], some s11, some e13⟩ (.pronunciation t14 s14 e14 c14) =
      ⟨[⟨String.intercalate " " [t1, t2, t3, t4, t5, t6, t7, t8, t9, t10], a + s1, a + e10, c10⟩], [t11, t12, t13, t14], some s11, some e14⟩ := rfl
  have h15 : segStep a ⟨[⟨String.intercalate " " [t1, t2, t3, t4, t5, t6, t7, t8, t9, t10], a + s1, a + e10, c10⟩], [t11, t12, t13, t14], some s11, some e14⟩ (.pronunciation t15 s15 e15 c15) =
      ⟨[⟨String.intercalate " " [t1, t2, t3, t4, t5, t6, t7, t8, t9, t10], a + s1, a + e10, c10⟩], [t11, t12, t13, t14, t15], some s11, some e15⟩ := rfl
  have h16 : segStep a ⟨[⟨String.intercalate " " [t1, t2, t3, t4, t5, t6, t7, t8, t9, t10], a + s1, a + e10, c10⟩], [t11, t12, t13, t14, t15], some s11, some e15⟩ (.pronunciation t16 s16 e16 c16) =
      ⟨[⟨String.intercalate " " [t1, t2, t3, t4, t5, t6, t7, t8, t9, t10], a + s1, a + e10, c10⟩], [t11, t12, t13, t14, t15, t16], some s11, some e16⟩ := rfl
  have h17 : segStep a ⟨[⟨String.intercalate " " [t1, t2, t3, t4, t5, t6, t7, t8, t9, t10], a + s1, a + e10, c10⟩], [t11, t12, t13, t14, t15, t16], some s11, some e16⟩ (.pronunciation t17 s17 e17 c17) =
      ⟨[⟨String.intercalate " " [t1, t2, t3, t4, t5, t6, t7, t8, t9, t10], a + s1, a + e10, c10⟩], [t11, t12, t13, t14, t15, t16, t17], some s11, some e17⟩ := rfl
  have h18 : segStep a ⟨[⟨String.intercalate " " [t1, t2, t3, t4, t5, t6, t7, t8, t9, t10], a + s1, a + e10, c10⟩], [t11, t12, t13, t14, t15, t16, t17], some s11, some e17⟩ (.pronunciation t18 s18 e18 c18) =
      ⟨[⟨String.intercalate " " [t1, t2, t3, t4, t5, t6, t7, t8, t9, t10], a + s1, a + e10, c10⟩], [t11, t12, t13, t14, t15, t16, t17, t18], some s11, some e18⟩ := rfl
  have h19 : segStep a ⟨[⟨String.intercalate " " [t1, t2, t3, t4, t5, t6, t7, t8, t9, t10], a + s1, a + e10, c10⟩], [t11, t12, t13, t14, t15, t16, t17, t18], some s11, some e18⟩ (.pronunciation t19 s19 e19 c19) =
      ⟨[⟨String.intercalate " " [t1, t2, t3, t4, t5, t6, t7, t8, t9, t10], a + s1, a + e10, c10⟩], [t11, t12, t13, t14, t15, t16, t17, t18, t19], some s11, some e19⟩ := rfl
  have h20 : segStep a ⟨[⟨String.intercalate " " [t1, t2, t3, t4, t5, t6, t7, t8, t9, t10], a + s1, a + e10, c10⟩], [t11, t12, t13, t14, t15, t16, t17, t18, t19], some s11, some e19⟩ (.pronunciation t20 s20 e20 c20) =
      ⟨[⟨String.intercalate " " [t1, t2, t3, t4, t5, t6, t7, t8, t9, t10], a + s1, a + e10, c10⟩, ⟨String.intercalate " " [t11, t12, t13, t14, t15, t16, t17, t18, t19, t20], a + s11, a + e20, c20⟩], [], none, some e20⟩ := rfl
  have h21 : segStep a ⟨[⟨String.intercalate " " [t1, t2, t3, t4, t5, t6, t7, t8, t9, t10], a + s1, a + e10, c10⟩, ⟨String.intercalate " " [t11, t12, t13, t14, t15, t16, t17, t18, t19, t20], a + s11, a + e20, c20⟩], [], none, some e20⟩ (.pronunciation t21 s21 e21 c21) =
      ⟨[⟨String.intercalate " " [t1, t2, t3, t4, t5, t6, t7, t8, t9, t10], a + s1, a + e10, c10⟩, ⟨String.intercalate " " [t11, t12, t13, t14, t15, t16, t17, t18, t19, t20], a + s11, a + e20, c20⟩], [t21], some s21, some e21⟩ := rfl
  have h22 : segStep a ⟨[⟨String.intercalate " " [t1, t2, t3, t4, t5, t6, t7, t8, t9, t10], a + s1, a + e10, c10⟩, ⟨String.intercalate " " [t11, t12, t13, t14, t15, t16, t17, t18, t19, t20], a + s11, a + e20, c20⟩], [t21], some s21, some e21⟩ (.pronunciation t22 s22 e22 c22) =
      ⟨[⟨String.intercalate " " [t1, t2, t3, t4, t5, t6, t7, t8, t9, t10], a + s1, a + e10, c10⟩, ⟨String.intercalate " " [t11, t12, t13, t14, t15, t16, t17, t18, t19, t20], a + s11, a + e20, c20⟩], [t21, t22], some s21, some e22⟩ := rfl
  have h23 : segStep a ⟨[⟨String.intercalate " " [t1, t2, t3, t4, t5, t6, t7, t8, t9, t10], a + s1, a + e10, c10⟩, ⟨String.intercalate " " [t11, t12, t13, t14, t15, t16, t17, t18, t19, t20], a + s11, a + e20, c20⟩], [t21, t22], some s21, some e22⟩ (.pronunciation t23 s23 e23 c23) =
      ⟨[⟨String.intercalate " " [t1, t2, t3, t4, t5, t6, t7, t8, t9, t10], a + s1, a + e10, c10⟩, ⟨String.intercalate " " [t11, t12, t13, t14, t15, t16, t17, t18, t19, t20], a + s11, a + e20, c20⟩], [t21, t22, t23], some s21, some e23⟩ := rfl
  have h24 : segStep a ⟨[⟨String.intercalate " " [t1, t2, t3, t4, t5, t6, t7, t8, t9, t10], a + s1, a + e10, c10⟩, ⟨String.intercalate " " [t11, t12, t13, t14, t15, t16, t17, t18, t19, t20], a + s11, a + e20, c20⟩], [t21, t22, t23], some s21, some e23⟩ (.pronunciation t24 s24 e24 c24) =
      ⟨[⟨String.intercalate " " [t1, t2, t3, t4, t5, t6, t7, t8, t9, t10], a + s1, a + e10, c10⟩, ⟨String.intercalate " " [t11, t12, t13, t14, t15, t16, t17, t18, t19, t20], a + s11, a + e20, c20⟩], [t21, t22, t23, t24], some s21, some e24⟩ := rfl
  have h25 : segStep a ⟨[⟨String.intercalate " " [t1, t2, t3, t4, t5, t6, t7, t8, t9, t10], a + s1, a + e10, c10⟩, ⟨String.intercalate " " [t11, t12, t13, t14, t15, t16, t17, t18, t19, t20], a + s11, a + e20, c20⟩], [t21, t22, t23, t24], some s21, some e24⟩ (.pronunciation t25 s25 e25 c25) =
      ⟨[⟨String.intercalate " " [t1, t2, t3, t4, t5, t6, t7, t8, t9, t10], a + s1, a + e10, c10⟩, ⟨String.intercalate " " [t11, t12, t13, t14, t15, t16, t17, t18, t19, t20], a + s11, a + e20, c20⟩], [t21, t22, t23, t24, t25], some s21, some e25⟩ := rfl
  simp only [segmentItems]
  rw [List.foldl_cons, h1, List.foldl_cons, h2, List.foldl_cons, h3, List.foldl_cons, h4, List.foldl_cons, h5, List.foldl_cons, h6, List.foldl_cons, h7, List.foldl_cons, h8, List.foldl_cons, h9, List.foldl_cons, h10, List.foldl_cons, h11, List.foldl_cons, h12, List.foldl_cons, h13, List.foldl_cons, h14, List.foldl_cons, h15, List.foldl_cons, h16, List.foldl_cons, h17, List.foldl_cons, h18, List.foldl_cons, h19, List.foldl_cons, h20, List.foldl_cons, h21, List.foldl_cons, h22, List.foldl_cons, h23, List.foldl_cons, h24, List.foldl_cons, h25, List.foldl_nil]
  rfl


lemma appendToLast_length :
    ∀ (l : List String) (p : String), (appendToLast l p).length = l.length
  | [], _ => rfl
  | [_], _ => rfl
  | _ :: w2 :: ws, p => by
    simp [appendToLast, appendToLast_length (w2 :: ws) p]

lemma wordTimes_append :
    ∀ (x y : List Word), wordTimes (x ++ y) = wordTimes x ++ wordTimes y
  | [], _ => rfl
  | w :: x, y => by simp [wordTimes, wordTimes_append x y]

lemma wordTimes_ne_nil {g : List Word} (h : g ≠ []) : wordTimes g ≠ [] := by
  cases g with
  | nil => exact absurd rfl h
  | cons w ws => simp [wordTimes]

lemma wordTimes_head {g : List Word} (h : g ≠ []) :
    (wordTimes g).head? = some (groupStart g) := by
  cases g with
  | nil => exact absurd rfl h
  | cons w ws => simp [wordTimes, groupStart]

lemma wordTimes_getLast :
    ∀ {g : List Word}, g ≠ [] → (wordTimes g).getLast? = some (groupStop g)
  | [], h => absurd rfl h
  | [w], _ => by simp [wordTimes, groupStop]
  | w :: w2 :: g, _ => by
    have ih := wordTimes_getLast (g := w2 :: g) (by simp)
    simp only [wordTimes, List.getLast?_cons_cons] at ih ⊢
    rw [ih]
    simp [groupStop]

lemma head_append_of_ne_nil {l l2 : List ℚ} (h : l ≠ []) :
    (l ++ l2).head? = l.head? := by
  cases l with
  | nil => exact absurd rfl h
  | cons x xs => rfl

lemma chain_le_head_getLast :
    ∀ (l : List ℚ), List.Chain' (· ≤ ·) l →
      ∀ x ∈ l.head?, ∀ y ∈ l.getLast?, x ≤ y
  | [], _, x, hx, y, hy => by simp at hx
  | [a], _, x, hx, y, hy => by
    simp at hx hy
    simp [← hx, ← hy]
  | a :: b :: l, h, x, hx, y, hy => by
    rw [List.chain'_cons] at h
    have hx2 : a = x := by simpa using hx
    rw [List.getLast?_cons_cons] at hy
    have hb : x ≤ b := hx2 ▸ h.1
    exact hb.trans (chain_le_head_getLast (b :: l) h.2 b rfl y hy)

lemma groups_time_ordered :
    ∀ (gs : List (List Word)), (∀ g ∈ gs, g ≠ []) →
      List.Chain' (· ≤ ·) (wordTimes gs.flatten) →
      List.Chain' (fun g1 g2 => groupStop g1 ≤ groupStart g2) gs ∧
        ∀ g ∈ gs, groupStart g ≤ groupStop g
  | [], _, _ => ⟨List.chain'_nil, by simp⟩
  | g :: gs, hne, hchain => by
    have hgne : g ≠ [] := hne g (List.mem_cons_self ..)
    rw [List.flatten_cons, wordTimes_append, List.chain'_append] at hchain
    obtain ⟨hg, hrest, hlink⟩ := hchain
    have ih := groups_time_ordered gs
      (fun g2 hg2 => hne g2 (List.mem_cons_of_mem _ hg2)) hrest
    constructor
    · rw [List.chain'_cons']
      refine ⟨?_, ih.1⟩
      intro g2 hg2
      cases gs with
      | nil => simp at hg2
      | cons g2h gs2 =>
        have hg2e : g2 = g2h := by simpa using hg2.symm
        subst hg2e
        have hg2ne : g2 ≠ [] := hne g2 (by simp)
        apply hlink
        · rw [wordTimes_getLast hgne]
          rfl
        · rw [List.flatten_cons, wordTimes_append,
            head_append_of_ne_nil (wordTimes_ne_nil hg2ne),
            wordTimes_head hg2ne]
          rfl
    · intro g2 hg2
      rcases List.mem_cons.1 hg2 with rfl | hmem
      · exact chain_le_head_getLast (wordTimes g2) hg _
          (by rw [wordTimes_head hgne]; rfl) _
          (by rw [wordTimes_getLast hgne]; rfl)
      · exact ih.2 g2 hmem

lemma segInv_init (a : ℚ) : SegInv a ⟨[], [], none, none⟩ ⟨[], []⟩ := by
  refine ⟨rfl, rfl, fun _ => rfl, fun h => absurd rfl h⟩

lemma segInv_step (a : ℚ) (st : SegState) (gst : GroupState)
    (it : TranscriptItem) (h : SegInv a st gst) :
    SegInv a (segStep a st it) (groupStep gst it) := by
  obtain ⟨h1, h2, h3, h4⟩ := h
  cases it with
  | pronunciation w s e cf =>
    cases hbuf : gst.buffer with
    | nil =>
      have hct : st.current_text = [] := by
        rw [hbuf] at h2
        exact List.length_eq_zero.1 h2
      have hcs : st.current_start = none := h3 hbuf
      simp only [segStep, groupStep, hct, hcs, hbuf, List.nil_append]
      rw [if_neg (by simp), if_neg (by simp)]
      refine ⟨h1, by simp, by simp, ?_⟩
      intro _
      constructor <;> simp [groupStart, groupStop]
    | cons w0 buf2 =>
      have hbne : gst.buffer ≠ [] := by rw [hbuf]; simp
      obtain ⟨hcs, hce⟩ := h4 hbne
      have hlen : (st.current_text ++ [w]).length =
          (gst.buffer ++ [(⟨w, s, e, cf⟩ : Word)]).length := by simp [h2]
      have hgs : groupStart (gst.buffer ++ [(⟨w, s, e, cf⟩ : Word)]) =
          groupStart gst.buffer := by
        rw [hbuf]
        simp [groupStart]
      have hgp : groupStop (gst.buffer ++ [(⟨w, s, e, cf⟩ : Word)]) = e := by
        simp [groupStop]
      by_cases hthr : 10 ≤ (gst.buffer ++ [(⟨w, s, e, cf⟩ : Word)]).length
      · simp only [segStep, groupStep, hcs]
        rw [if_pos (by rw [hlen]; exact hthr), if_pos hthr]
        refine ⟨?_, by simp, by simp, by simp⟩
        rw [List.map_append, List.map_append, h1]
        congr 1
        simp [hgs, hgp]
      · simp only [segStep, groupStep, hcs]
        rw [if_neg (by rw [hlen]; exact hthr), if_neg hthr]
        refine ⟨h1, by simp [h2], by simp, ?_⟩
        intro _
        constructor
        · simp [hgs]
        · simp [hgp]
  | punctuation p =>
    cases hbuf : gst.buffer with
    | nil =>
      have hct : st.current_text = [] := by
        rw [hbuf] at h2
        exact List.length_eq_zero.1 h2
      simp only [segStep, groupStep, hct, hbuf, List.isEmpty_nil, if_true]
      exact ⟨h1, h2, h3, h4⟩
    | cons w0 buf2 =>
      have hbne : gst.buffer ≠ [] := by rw [hbuf]; simp
      obtain ⟨hcs, hce⟩ := h4 hbne
      have hctne : st.current_text ≠ [] := by
        intro hc
        rw [hc, hbuf] at h2
        simp at h2
      have hctE : st.current_text.isEmpty = false := by
        cases hl : st.current_text with
        | nil => exact absurd hl hctne
        | cons x xs => rfl
      have hbE : gst.buffer.isEmpty = false := by rw [hbuf]; rfl
      by_cases hp : p = "." ∨ p = "!" ∨ p = "?"
      · simp only [segStep, groupStep, hctE, hbE, Bool.false_eq_true,
          if_false, if_pos hp]
        refine ⟨?_, by simp, by simp, by simp⟩
        rw [List.map_append, List.map_append, h1]
        congr 1
        simp [hcs, hce]
      · simp only [segStep, groupStep, hctE, hbE, Bool.false_eq_true,
          if_false, if_neg hp]
        exact ⟨h1, by rw [appendToLast_length]; exact h2, h3, h4⟩

lemma segInv_foldl (a : ℚ) :
    ∀ (items : List TranscriptItem) (st : SegState) (gst : GroupState),
      SegInv a st gst →
      SegInv a (items.foldl (segStep a) st) (items.foldl groupStep gst)
  | [], _, _, h => h
  | it :: items, st, gst, h =>
    segInv_foldl a items _ _ (segInv_step a st gst it h)

lemma groupStep_flatten :
    ∀ (items : List TranscriptItem) (gst : GroupState),
      (items.foldl groupStep gst).groups.flatten ++
          (items.foldl groupStep gst).buffer =
        gst.groups.flatten ++ gst.buffer ++ wordsOf items
  | [], gst => by simp [wordsOf]
  | it :: items, gst => by
    rw [List.foldl_cons, groupStep_flatten items]
    cases it with
    | pronunciation c s e conf =>
      simp only [wordsOf]
      by_cases hthr : 10 ≤ (gst.buffer ++ [(⟨c, s, e, conf⟩ : Word)]).length
      · simp only [groupStep, if_pos hthr]
        simp [List.flatten_append, List.append_assoc]
      · simp only [groupStep, if_neg hthr]
        simp [List.append_assoc]
    | punctuation p =>
      simp only [wordsOf]
      cases hbE : gst.buffer.isEmpty with
      | true => simp [groupStep, hbE]
      | false =>
        by_cases hp : p = "." ∨ p = "!" ∨ p = "?"
        · simp only [groupStep, hbE, Bool.false_eq_true, if_false, if_pos hp]
          simp [List.flatten_append]
        · simp only [groupStep, hbE, Bool.false_eq_true, if_false, if_neg hp]

lemma contributingGroups_flatten (items : List TranscriptItem) :
    (contributingGroups items).flatten = wordsOf items := by
  have hmain := groupStep_flatten items ⟨[], []⟩
  simp only [List.flatten_nil, List.nil_append] at hmain
  unfold contributingGroups
  cases hbE : (items.foldl groupStep ⟨[], []⟩).buffer.isEmpty with
  | false =>
    simp only [hbE, Bool.false_eq_true, if_false]
    rw [List.flatten_append]
    simpa using hmain
  | true =>
    have hb : (items.foldl groupStep ⟨[], []⟩).buffer = [] := by
      simpa using hbE
    simp only [hbE, if_true]
    rw [← hmain, hb, List.append_nil]

lemma groupStep_groups_ne :
    ∀ (items : List TranscriptItem) (gst : GroupState),
      (∀ g ∈ gst.groups, g ≠ []) →
      ∀ g ∈ (items.foldl groupStep gst).groups, g ≠ []
  | [], _, h => h
  | it :: items, gst, h => by
    rw [List.foldl_cons]
    apply groupStep_groups_ne items
    intro g hg
    cases it with
    | pronunciation c s e conf =>
      by_cases hthr : 10 ≤ (gst.buffer ++ [(⟨c, s, e, conf⟩ : Word)]).length
      · simp only [groupStep, if_pos hthr] at hg
        rcases List.mem_append.1 hg with hm | hm
        · exact h g hm
        · have hgb : g = gst.buffer ++ [⟨c, s, e, conf⟩] := by simpa using hm
          rw [hgb]
          simp
      · simp only [groupStep, if_neg hthr] at hg
        exact h g hg
    | punctuation p =>
      cases hbE : gst.buffer.isEmpty with
      | true =>
        simp only [groupStep, hbE, if_true] at hg
        exact h g hg
      | false =>
        by_cases hp : p = "." ∨ p = "!" ∨ p = "?"
        · simp only [groupStep, hbE, Bool.false_eq_true, if_false,
            if_pos hp] at hg
          rcases List.mem_append.1 hg with hm | hm
          · exact h g hm
          · have hgb : g = gst.buffer := by simpa using hm
            rw [hgb]
            intro hnil
            rw [hnil] at hbE
            simp at hbE
        · simp only [groupStep, hbE, Bool.false_eq_true, if_false,
            if_neg hp] at hg
          exact h g hg

lemma contributingGroups_ne (items : List TranscriptItem) :
    ∀ g ∈ contributingGroups items, g ≠ [] := by
  intro g hg
  simp only [contributingGroups] at hg
  cases hbE : (items.foldl groupStep ⟨[], []⟩).buffer.isEmpty with
  | true =>
    rw [hbE] at hg
    simp only [if_true] at hg
    exact groupStep_groups_ne items ⟨[], []⟩ (by simp) g hg
  | false =>
    rw [hbE] at hg
    simp only [Bool.false_eq_true, if_false] at hg
    rcases List.mem_append.1 hg with hm | hm
    · exact groupStep_groups_ne items ⟨[], []⟩ (by simp) g hm
    · have hgb : g = (items.foldl groupStep ⟨[], []⟩).buffer := by
        simpa using hm
      rw [hgb]
      intro hnil
      rw [hnil] at hbE
      simp at hbE

/-- C9: for every token stream with non-decreasing word timestamps, the
emitted transcript segments are time-ordered and non-overlapping, and the
(start, stop) pair of each segment equals the first contributing word's start
time and the last contributing word's end time, offset by the owning
AudioClip's start time, where the contributing-word groups are given by the
specification-side segmentation rule. -/
theorem transcript_segments_time_ordered (a : ℚ)
    (items : List TranscriptItem)
    (hchain : List.Chain' (· ≤ ·) (wordTimes (wordsOf items))) :
    (segmentItems a items).map (fun t => (t.start, t.stop)) =
        (contributingGroups items).map
          (fun g => (a + groupStart g, a + groupStop g)) ∧
      List.Chain' (fun t u => t.stop ≤ u.start) (segmentItems a items) ∧
      ∀ t ∈ segmentItems a items, t.start ≤ t.stop := by
  obtain ⟨i1, i2, i3, i4⟩ :=
    segInv_foldl a items ⟨[], [], none, none⟩ ⟨[], []⟩ (segInv_init a)
  have h1 : (segmentItems a items).map (fun t => (t.start, t.stop)) =
      (contributingGroups items).map
        (fun g => (a + groupStart g, a + groupStop g)) := by
    unfold segmentItems contributingGroups
    cases hbuf : (items.foldl groupStep ⟨[], []⟩).buffer with
    | nil =>
      have hct :
          (items.foldl (segStep a) ⟨[], [], none, none⟩).current_text = [] := by
        rw [hbuf] at i2
        exact List.length_eq_zero.1 i2
      simp only [hct, hbuf, List.isEmpty_nil, if_true]
      exact i1
    | cons w0 buf2 =>
      have hbne : (items.foldl groupStep ⟨[], []⟩).buffer ≠ [] := by
        rw [hbuf]
        simp
      obtain ⟨hcs, hce⟩ := i4 hbne
      have hctne :
          (items.foldl (segStep a) ⟨[], [], none, none⟩).current_text ≠ [] := by
        intro hc
        rw [hc, hbuf] at i2
        simp at i2
      have hctE :
          (items.foldl (segStep a) ⟨[], [], none, none⟩).current_text.isEmpty =
            false := by
        cases hl : (items.foldl (segStep a) ⟨[], [], none, none⟩).current_text with
        | nil => exact absurd hl hctne
        | cons x xs => rfl
      have hbE : (items.foldl groupStep ⟨[], []⟩).buffer.isEmpty = false := by
        rw [hbuf]
        rfl
      simp only [hctE, hbE, Bool.false_eq_true, if_false]
      rw [List.map_append, List.map_append, i1]
      congr 1
      simp [hcs, hce]
  have hgt := groups_time_ordered (contributingGroups items)
    (contributingGroups_ne items)
    (by rw [contributingGroups_flatten]; exact hchain)
  refine ⟨h1, ?_, ?_⟩
  · have hchain2 : List.Chain' (fun p q : ℚ × ℚ => p.2 ≤ q.1)
        ((contributingGroups items).map
          (fun g => (a + groupStart g, a + groupStop g))) := by
      rw [List.chain'_map]
      exact List.Chain'.imp
        (fun g1 g2 h12 => by simpa using add_le_add_left h12 a) hgt.1
    rw [← h1, List.chain'_map] at hchain2
    simpa using hchain2
  · intro t ht
    have hmem : (t.start, t.stop) ∈
        (segmentItems a items).map (fun t => (t.start, t.stop)) :=
      List.mem_map_of_mem _ ht
    rw [h1] at hmem
    obtain ⟨g, hg, hpair⟩ := List.mem_map.1 hmem
    have hb := hgt.2 g hg
    have e1 : a + groupStart g = t.start := congrArg Prod.fst hpair
    have e2 : a + groupStop g = t.stop := congrArg Prod.snd hpair
    rw [← e1, ← e2]
    exact add_le_add_left hb a

/-- Witness for transcript_segments_time_ordered at a concrete monotone
stream. -/
theorem transcript_segments_time_ordered_witness :
    List.Chain' (· ≤ ·) (wordTimes (wordsOf monotoneItems)) ∧
      ((segmentItems 5 monotoneItems).map (fun t => (t.start, t.stop)) =
          (contributingGroups monotoneItems).map
            (fun g => (5 + groupStart g, 5 + groupStop g)) ∧
        List.Chain' (fun t u => t.stop ≤ u.start)
          (segmentItems 5 monotoneItems) ∧
        ∀ t ∈ segmentItems 5 monotoneItems, t.start ≤ t.stop) :=
  ⟨by norm_num [monotoneItems, wordsOf, wordTimes, List.chain'_cons],
    transcript_segments_time_ordered 5 monotoneItems
      (by norm_num [monotoneItems, wordsOf, wordTimes, List.chain'_cons])⟩

lemma scoreAux_map_frame (v : Video) :
    ∀ (idxs : List ℕ) (prev : Option (List ℕ)),
      (scoreAux v idxs prev).map Candidate.frame_num = idxs
  | [], _ => rfl
  | n :: idxs, _ => by simp [scoreAux, scoreAux_map_frame v idxs]

lemma scoreAux_map_ts (v : Video) :
    ∀ (idxs : List ℕ) (prev : Option (List ℕ)),
      (scoreAux v idxs prev).map Candidate.timestamp =
        idxs.map (fun n : ℕ => (n : ℚ) / v.fps)
  | [], _ => rfl
  | n :: idxs, _ => by simp [scoreAux, scoreAux_map_ts v idxs]

lemma scoreAux_length (v : Video) (idxs : List ℕ) (prev : Option (List ℕ)) :
    (scoreAux v idxs prev).length = idxs.length := by
  have h := congrArg List.length (scoreAux_map_frame v idxs prev)
  simpa using h

lemma scoreFrames_length (v : Video) (r : ℕ) :
    (scoreFrames v r).length = sampleCount v.total_frames r := by
  rw [scoreFrames, scoreAux_length, sampledIndices, List.length_range']

lemma scoreFrames_pairwise_ts (v : Video) (r : ℕ) (hr : 0 < r)
    (hf : 0 < v.fps) :
    List.Pairwise (fun a b => a.timestamp < b.timestamp) (scoreFrames v r) := by
  have hidx : List.Pairwise (· < ·) (sampledIndices v.total_frames r) :=
    List.pairwise_lt_range' 0 _ r hr
  have hts : List.Pairwise (· < ·)
      ((scoreFrames v r).map Candidate.timestamp) := by
    rw [scoreFrames, scoreAux_map_ts]
    refine List.Pairwise.map _ (fun a b hab => ?_) hidx
    rw [div_lt_div_iff_of_pos_right hf]
    exact_mod_cast hab
  rwa [List.pairwise_map] at hts

lemma mkKeyframeData_map_snd (dir : String) :
    ∀ (i : ℕ) (cs : List Candidate),
      (mkKeyframeData dir i cs).map Prod.snd = cs.map Candidate.timestamp
  | _, [] => rfl
  | i, c :: cs => by simp [mkKeyframeData, mkKeyframeData_map_snd dir (i + 1) cs]

lemma pair_sublist_of_pairwise_lt {l : List Candidate}
    (hp : List.Pairwise (fun a b => a.timestamp < b.timestamp) l)
    {a b : Candidate} (ha : a ∈ l) (hb : b ∈ l)
    (hab : a.timestamp < b.timestamp) : List.Sublist [a, b] l := by
  induction l with
  | nil => simp at ha
  | cons x xs ih =>
    rw [List.pairwise_cons] at hp
    rcases List.mem_cons.1 ha with rfl | hax
    · have hbx : b ∈ xs := by
        rcases List.mem_cons.1 hb with rfl | h
        · exact absurd hab (lt_irrefl _)
        · exact h
      exact List.Sublist.cons₂ a (List.singleton_sublist.2 hbx)
    · rcases List.mem_cons.1 hb with rfl | hbx
      · exact absurd hab (not_lt.2 (le_of_lt (hp.1 a hax)))
      · exact List.Sublist.cons x (ih hp.2 hax hbx)

lemma mem_take_of_pair_sublist :
    ∀ {l : List Candidate}, l.Nodup → ∀ {a b : Candidate},
      List.Sublist [a, b] l → ∀ {K : ℕ}, b ∈ l.take K → a ∈ l.take K := by
  intro l
  induction l with
  | nil =>
    intro _ a b h
    simp at h
  | cons x xs ih =>
    intro hnd a b h K hb
    cases K with
    | zero => simp at hb
    | succ k =>
      rw [List.take_succ_cons] at hb ⊢
      cases h with
      | cons₂ h2 => exact List.mem_cons_self ..
      | cons _ h2 =>
        rcases List.mem_cons.1 hb with rfl | hbk
        · have hbxs : b ∈ xs := h2.subset (by simp)
          exact absurd hbxs (List.nodup_cons.1 hnd).1
        · exact List.mem_cons_of_mem x
            (ih (List.nodup_cons.1 hnd).2 h2 hbk)

lemma extract_map_snd_perm (v : Video) (dir : String) (K r : ℕ) :
    ((extract_best_frames_fast v dir K r).map Prod.snd).Perm
      (((List.insertionSort scoreGE (scoreFrames v r)).take K).map
        Candidate.timestamp) := by
  simp only [extract_best_frames_fast]
  have p1 := (List.perm_insertionSort tsLE (mkKeyframeData dir 0
      (List.insertionSort frameLE
        ((List.insertionSort scoreGE (scoreFrames v r)).take K)))).map Prod.snd
  rw [mkKeyframeData_map_snd] at p1
  exact p1.trans ((List.perm_insertionSort frameLE _).map _)

lemma extract_length (v : Video) (dir : String) (K r : ℕ) :
    (extract_best_frames_fast v dir K r).length =
      min K (sampleCount v.total_frames r) := by
  have h := congrArg List.length (mkKeyframeData_map_snd dir 0
    (List.insertionSort frameLE
      ((List.insertionSort scoreGE (scoreFrames v r)).take K)))
  simp only [List.length_map] at h
  simp only [extract_best_frames_fast]
  rw [List.Perm.length_eq (List.perm_insertionSort tsLE _), h,
    List.Perm.length_eq (List.perm_insertionSort frameLE _),
    List.length_take,
    List.Perm.length_eq (List.perm_insertionSort scoreGE _),
    scoreFrames_length]

/-- C4: extract_best_frames_fast returns exactly min(K, S) (path, timestamp)
pairs, S the stride-determined sampled-frame count; the returned timestamps
are strictly increasing with no duplicates; and the score-descending
selection is stable, so of two candidates with equal difference scores the
earlier-timestamp one is selected whenever the later one is. -/
theorem extract_best_frames_properties (v : Video) (dir : String)
    (K r : ℕ) (hr : 0 < r) (hf : 0 < v.fps) :
    (extract_best_frames_fast v dir K r).length =
        min K (sampleCount v.total_frames r) ∧
      List.Pairwise (fun a b : String × ℚ => a.2 < b.2)
        (extract_best_frames_fast v dir K r) ∧
      ∀ c1 ∈ scoreFrames v r, ∀ c2 ∈ scoreFrames v r,
        c1.score = c2.score → c1.timestamp < c2.timestamp →
        c2.timestamp ∈ (extract_best_frames_fast v dir K r).map Prod.snd →
        c1.timestamp ∈ (extract_best_frames_fast v dir K r).map Prod.snd := by
  have hptsC : List.Pairwise (fun a b => a.timestamp < b.timestamp)
      (scoreFrames v r) := scoreFrames_pairwise_ts v r hr hf
  have hndtsC : ((scoreFrames v r).map Candidate.timestamp).Nodup :=
    List.Pairwise.map _ (fun _ _ hab => ne_of_lt hab) hptsC
  have hndC : (scoreFrames v r).Nodup :=
    hptsC.imp (fun hab he => absurd (he ▸ hab) (lt_irrefl _))
  have hselTsNodup :
      (((List.insertionSort scoreGE (scoreFrames v r)).take K).map
        Candidate.timestamp).Nodup := by
    rw [List.map_take]
    refine List.Nodup.sublist (List.take_sublist ..) ?_
    exact (((List.perm_insertionSort scoreGE _).map
      Candidate.timestamp).nodup_iff).2 hndtsC
  have houtTsNodup :
      ((extract_best_frames_fast v dir K r).map Prod.snd).Nodup :=
    ((extract_map_snd_perm v dir K r).nodup_iff).2 hselTsNodup
  refine ⟨extract_length v dir K r, ?_, ?_⟩
  · have hSortedOut : List.Pairwise tsLE (extract_best_frames_fast v dir K r) := by
      simp only [extract_best_frames_fast]
      exact List.sorted_insertionSort tsLE _
    have hneOut : List.Pairwise (fun a b : String × ℚ => a.2 ≠ b.2)
        (extract_best_frames_fast v dir K r) := by
      have hpw : List.Pairwise (fun a b : ℚ => a ≠ b)
          ((extract_best_frames_fast v dir K r).map Prod.snd) := houtTsNodup
      exact List.pairwise_map.1 hpw
    exact (hSortedOut.and hneOut).imp (fun h => lt_of_le_of_ne h.1 h.2)
  · intro c1 h1 c2 h2 hsc hts hmem
    have hperm := extract_map_snd_perm v dir K r
    rw [hperm.mem_iff] at hmem ⊢
    obtain ⟨cm, hcm, hcmts⟩ := List.mem_map.1 hmem
    have hcmSorted : cm ∈ List.insertionSort scoreGE (scoreFrames v r) :=
      (List.take_sublist ..).subset hcm
    have hcmCands : cm ∈ scoreFrames v r :=
      (List.perm_insertionSort scoreGE _).subset hcmSorted
    have hcmEq : cm = c2 :=
      List.inj_on_of_nodup_map hndtsC hcmCands h2 hcmts
    have hsub := pair_sublist_of_pairwise_lt hptsC h1 h2 hts
    have hge : scoreGE c1 c2 := le_of_eq hsc.symm
    have hsub2 := List.pair_sublist_insertionSort hge hsub
    have hndSorted : (List.insertionSort scoreGE (scoreFrames v r)).Nodup :=
      ((List.perm_insertionSort scoreGE _).nodup_iff).2 hndC
    have hc1 : c1 ∈ (List.insertionSort scoreGE (scoreFrames v r)).take K :=
      mem_take_of_pair_sublist hndSorted hsub2 (hcmEq ▸ hcm)
    exact List.mem_map.2 ⟨c1, hc1, rfl⟩

/-- Witness for extract_best_frames_properties at the concrete three-frame
video, frame budget 2, stride 1. -/
theorem extract_best_frames_properties_witness :
    (0 : ℕ) < 1 ∧ 0 < sampleVideo.fps ∧
      ((extract_best_frames_fast sampleVideo "kf" 2 1).length =
          min 2 (sampleCount sampleVideo.total_frames 1) ∧
        List.Pairwise (fun a b : String × ℚ => a.2 < b.2)
          (extract_best_frames_fast sampleVideo "kf" 2 1) ∧
        ∀ c1 ∈ scoreFrames sampleVideo 1, ∀ c2 ∈ scoreFrames sampleVideo 1,
          c1.score = c2.score → c1.timestamp < c2.timestamp →
          c2.timestamp ∈
            (extract_best_frames_fast sampleVideo "kf" 2 1).map Prod.snd →
          c1.timestamp ∈
            (extract_best_frames_fast sampleVideo "kf" 2 1).map Prod.snd) :=
  ⟨by decide, by decide,
    extract_best_frames_properties sampleVideo "kf" 2 1 (by decide) (by decide)⟩

end Vidsense
